import Mathlib

/-!
Verification of the rebalance-wasm yield optimizer
(`src/wasm_modules/rebalance-wasm/src/rebalance/mod.rs` and the shared
legacy copy in `src/lib.rs`).

Modelling conventions of this development:
* IEEE-754 `f64` arithmetic of the source is embedded as exact rational
  (`ℚ`) arithmetic; `u64`/`usize`/`u8` values are embedded as `ℕ`.
* Rust `Result<T, String>` becomes `Except String T`; `Option` stays `Option`.
* The `as usize` / `as u128` float-to-integer casts of the source truncate
  toward zero and saturate at the bounds of the target type; they are
  embedded as `ratToNat` / `ratToU128` below.
* The wall-clock measurement `start_time.elapsed()` is an input of the
  model (`elapsed_ms`), since it is the one quantity the source reads
  from the environment rather than from the request.
-/

namespace Simulator

/-- Protocol type tags (`common.rs`). -/
def PROTO_UNKNOWN : ℕ := 0

/-- Protocol type tag for Aave. -/
def PROTO_AAVE : ℕ := 1

/-- Protocol type tag for Spark. -/
def PROTO_SPARK : ℕ := 2

/-- Protocol type tag for Fluid. -/
def PROTO_FLUID : ℕ := 3

/-- Protocol type tag for MetaMorpho. -/
def PROTO_MORPHO : ℕ := 4

/-- Post-transform per-protocol state (`ProtocolState` in the source). -/
structure ProtocolState where
  our_balance : ℚ
  pool_supply : ℚ
  pool_borrow : ℚ
  utilization : ℚ
  current_apy : ℚ
  is_blocked : Bool
  protocol_type : ℕ
deriving Repr, DecidableEq

/-- Interest-rate-model parameters in natural units (`IRMParams`). -/
structure IRMParams where
  kink1 : ℚ
  rate_at_kink1 : ℚ
  kink2 : ℚ
  rate_at_kink2 : ℚ
  rate_at_max : ℚ
  reserve_factor : ℚ
deriving Repr, DecidableEq

/-- Optimizer configuration (`OptimizerConfig`). -/
structure OptimizerConfig where
  step_pct : ℕ
  max_pool_share : ℚ
  min_allocation : ℚ
deriving Repr, DecidableEq

-- ============================================================================
-- Yield models (`rebalance/mod.rs` lines 484-622)
-- ============================================================================

/-- Single-kink borrow rate (`calc_borrow_rate_single_kink`). -/
def calc_borrow_rate_single_kink (util kink1 rate_kink1 rate_max : ℚ) : ℚ :=
  if util ≤ 0 then 0
  else if util ≤ kink1 then
    (if kink1 > 0 then util * rate_kink1 / kink1 else 0)
  else
    let excess := util - kink1
    let remaining := 1 - kink1
    if remaining ≤ 0 then rate_max
    else rate_kink1 + (rate_max - rate_kink1) * excess / remaining

/-- Double-kink borrow rate (`calc_borrow_rate_double_kink`). -/
def calc_borrow_rate_double_kink (util kink1 rate_kink1 kink2 rate_kink2 rate_max : ℚ) : ℚ :=
  if util ≤ 0 then 0
  else if util ≤ kink1 then
    (if kink1 > 0 then util * rate_kink1 / kink1 else 0)
  else if kink2 > kink1 ∧ util ≤ kink2 then
    let excess := util - kink1
    let segment := kink2 - kink1
    rate_kink1 + (rate_kink2 - rate_kink1) * excess / segment
  else
    let effective_kink := if kink2 > kink1 then kink2 else kink1
    let effective_rate := if kink2 > kink1 then rate_kink2 else rate_kink1
    let excess := util - effective_kink
    let remaining := 1 - effective_kink
    if remaining ≤ 0 then rate_max
    else effective_rate + (rate_max - effective_rate) * excess / remaining

/-- Supply rate from borrow rate (`calc_supply_rate`). -/
def calc_supply_rate (borrow_rate util reserve_factor : ℚ) : ℚ :=
  borrow_rate * util * (1 - reserve_factor)

/-- Utilization after a supply delta (`calc_new_utilization`). -/
def calc_new_utilization (pool_supply pool_borrow delta : ℚ) : ℚ :=
  let new_supply := pool_supply + delta
  if new_supply ≤ 0 then 1 else min (pool_borrow / new_supply) 1

/-- Bounded time delta for dilution-APY annualization
(`calc_dilution_time_delta`; FALLBACK = 7 days, MIN = 1 h, MAX = 30 d). -/
def calc_dilution_time_delta (last_update snapshot_timestamp : ℕ) : ℕ :=
  if snapshot_timestamp = 0 then 604800
  else if last_update = 0 ∨ last_update ≥ snapshot_timestamp then 604800
  else
    let t0 := snapshot_timestamp - last_update
    let t1 := if t0 < 3600 then 3600 else t0
    if t1 > 2592000 then 2592000 else t1

/-- Current APY for dilution-model vaults (`calc_dilution_current_apy`;
DEFAULT_APY = 0.05, SECONDS_PER_YEAR = 31536000). -/
def calc_dilution_current_apy (total_assets total_supply last_total_assets : ℚ)
    (last_update snapshot_timestamp : ℕ) : ℚ :=
  if total_supply ≤ 0 ∨ total_assets ≤ 0 then 0
  else if last_total_assets ≤ 0 then (if last_update = 0 then 0.05 else 0)
  else if last_total_assets ≥ total_assets then 0
  else if snapshot_timestamp = 0 then 0.05
  else
    let time_delta := calc_dilution_time_delta last_update snapshot_timestamp
    if time_delta = 0 then 0.05
    else
      let growth_rate := (total_assets - last_total_assets) / last_total_assets
      growth_rate * (31536000 / (time_delta : ℚ))

/-- MetaMorpho APY after a supply delta (`calc_metamorpho_apy_after_delta`). -/
def calc_metamorpho_apy_after_delta (current_apy pool_supply delta : ℚ) : ℚ :=
  let new_supply := pool_supply + delta
  if new_supply ≤ 0 then 0 else current_apy * pool_supply / new_supply

/-- Per-protocol default IRM parameters (`get_default_irm_params`). -/
def get_default_irm_params (protocol_type : ℕ) : ℚ × ℚ × ℚ × ℚ × ℚ × ℚ :=
  if protocol_type = PROTO_AAVE then (0.90, 0.04, 0, 0, 0.75, 0.10)
  else if protocol_type = PROTO_SPARK then (0.90, 0.04, 0, 0, 0.75, 0.10)
  else if protocol_type = PROTO_FLUID then (0.93, 0.10, 0, 0, 0.25, 0)
  else if protocol_type = PROTO_MORPHO then (1, 0.05, 0, 0, 0.05, 0)
  else (0.90, 0.05, 0, 0, 0.50, 0.05)

/-- Supply APY with explicit IRM parameters (`calc_supply_apy_with_irm`). -/
def calc_supply_apy_with_irm (protocol : ProtocolState) (delta : ℚ) (irm : IRMParams) : ℚ :=
  if protocol.protocol_type = PROTO_MORPHO then
    calc_metamorpho_apy_after_delta protocol.current_apy protocol.pool_supply delta
  else
    let new_util := calc_new_utilization protocol.pool_supply protocol.pool_borrow delta
    let borrow_rate :=
      if irm.kink2 > 0 ∧ irm.kink2 > irm.kink1 then
        calc_borrow_rate_double_kink new_util irm.kink1 irm.rate_at_kink1 irm.kink2
          irm.rate_at_kink2 irm.rate_at_max
      else
        calc_borrow_rate_single_kink new_util irm.kink1 irm.rate_at_kink1 irm.rate_at_max
    calc_supply_rate borrow_rate new_util irm.reserve_factor

/-- Supply APY with per-protocol default IRM parameters (`calc_supply_apy`). -/
def calc_supply_apy (protocol : ProtocolState) (delta : ℚ) : ℚ :=
  if protocol.protocol_type = PROTO_MORPHO then
    calc_metamorpho_apy_after_delta protocol.current_apy protocol.pool_supply delta
  else
    let new_util := calc_new_utilization protocol.pool_supply protocol.pool_borrow delta
    let p := get_default_irm_params protocol.protocol_type
    let borrow_rate :=
      if p.2.2.1 > 0 ∧ p.2.2.1 > p.1 then
        calc_borrow_rate_double_kink new_util p.1 p.2.1 p.2.2.1 p.2.2.2.1 p.2.2.2.2.1
      else
        calc_borrow_rate_single_kink new_util p.1 p.2.1 p.2.2.2.2.1
    calc_supply_rate borrow_rate new_util p.2.2.2.2.2

-- ============================================================================
-- Grid generation (`rebalance/mod.rs` lines 628-687)
-- ============================================================================

/-- Recursive core of `generate_weight_grid`. The source recurses on `depth`
with base case `depth == n_protocols - 1`; here the first argument counts the
axes still to fill (`n_protocols - depth`), so the base case is `1`. The `0`
case is unreachable for one or more protocols (the source underflows
`n_protocols - 1` there; see the C10 development). -/
def generate_weight_rec (step : ℚ) : ℕ → ℕ → List (List ℚ)
  | 0, _ => []
  | 1, remaining => [[(remaining : ℚ) * step]]
  | m + 2, remaining =>
      (List.range (remaining + 1)).flatMap fun w =>
        (generate_weight_rec step (m + 1) (remaining - w)).map
          (fun t => ((w : ℚ) * step) :: t)

/-- Unbounded stars-and-bars weight grid (`generate_weight_grid`). -/
def generate_weight_grid (n_protocols step_pct : ℕ) : List (List ℚ) :=
  let n_steps := 100 / step_pct
  let step : ℚ := 1 / (n_steps : ℚ)
  generate_weight_rec step n_protocols n_steps

/-- Recursive core of `generate_bounded_weight_grid`. The source indexes
`max_steps[depth]`; here the cap list is consumed positionally (inside
`optimize` its length equals the number of protocols). -/
def generate_bounded_rec (step_pct : ℕ) : List ℕ → ℕ → List (List ℚ)
  | [], _ => []
  | [cap], remaining =>
      if remaining ≤ cap then [[(remaining : ℚ) * (step_pct : ℚ) / 100]] else []
  | cap :: cap2 :: caps, remaining =>
      (List.range (min cap remaining + 1)).flatMap fun w =>
        (generate_bounded_rec step_pct (cap2 :: caps) (remaining - w)).map
          (fun t => ((w : ℚ) * (step_pct : ℚ) / 100) :: t)

/-- Bounded stars-and-bars weight grid (`generate_bounded_weight_grid`). -/
def generate_bounded_weight_grid (step_pct : ℕ) (max_weights_pct : List ℕ) :
    List (List ℚ) :=
  let max_steps := max_weights_pct.map fun w => min (w / step_pct) (100 / step_pct)
  let total_steps := 100 / step_pct
  generate_bounded_rec step_pct max_steps total_steps

-- ============================================================================
-- Claim C7: the unbounded grid enumerates the integer simplex exactly
-- ============================================================================

/-- Integer mirror of `generate_weight_rec`: the step vectors themselves. -/
def stars : ℕ → ℕ → List (List ℕ)
  | 0, _ => []
  | 1, remaining => [[remaining]]
  | m + 2, remaining =>
      (List.range (remaining + 1)).flatMap fun w =>
        (stars (m + 1) (remaining - w)).map (fun t => w :: t)

theorem generate_weight_rec_eq_stars (step : ℚ) (n S : ℕ) :
    generate_weight_rec step (n + 1) S =
      (stars (n + 1) S).map (List.map fun k : ℕ => (k : ℚ) * step) := by
  induction n generalizing S with
  | zero => rfl
  | succ m ih =>
    simp only [generate_weight_rec, stars, List.map_flatMap, List.map_map]
    refine List.flatMap_congr fun w _ => ?_
    rw [ih]
    simp [Function.comp_def]

theorem stars_mem (n S : ℕ) (l : List ℕ) :
    l ∈ stars (n + 1) S ↔ l.length = n + 1 ∧ l.sum = S := by
  induction n generalizing S l with
  | zero =>
    simp only [stars, List.mem_singleton]
    constructor
    · rintro rfl; simp
    · rintro ⟨h1, h2⟩
      match l with
      | [a] => simp at h2; simp [h2]
  | succ m ih =>
    simp only [stars, List.mem_flatMap, List.mem_map, List.mem_range]
    constructor
    · rintro ⟨w, hw, t, ht, rfl⟩
      have := (ih (S - w) t).mp ht
      simp only [List.length_cons, List.sum_cons]
      omega
    · rintro ⟨h1, h2⟩
      match l with
      | a :: t =>
        simp only [List.length_cons] at h1
        simp only [List.sum_cons] at h2
        refine ⟨a, by omega, t, ?_, rfl⟩
        exact (ih (S - a) t).mpr ⟨by omega, by omega⟩

theorem stars_nodup (n S : ℕ) : (stars (n + 1) S).Nodup := by
  induction n generalizing S with
  | zero => simp [stars]
  | succ m ih =>
    rw [stars, List.nodup_flatMap]
    constructor
    · intro w _
      refine (ih (S - w)).map ?_
      intro a b hab
      simpa using hab
    · refine List.Pairwise.imp ?_ (List.nodup_range (S + 1))
      intro a b hab
      simp only [Function.onFun, List.Disjoint]
      rintro l hla hlb
      simp only [List.mem_map] at hla hlb
      obtain ⟨t, _, rfl⟩ := hla
      obtain ⟨t2, _, h⟩ := hlb
      injection h with h1 h2
      exact hab h1.symm

theorem stars_length_sum (S m : ℕ) :
    ((List.range (S + 1)).map fun w => (S - w + m).choose m).sum =
      (S + m + 1).choose (m + 1) := by
  induction S with
  | zero => simp
  | succ S ih =>
    rw [List.range_succ_eq_map]
    simp only [List.map_cons, List.map_map, List.sum_cons]
    have hcomp :
        ((List.range (S + 1)).map ((fun w => (S + 1 - w + m).choose m) ∘ Nat.succ)) =
          (List.range (S + 1)).map fun w => (S - w + m).choose m := by
      refine List.map_congr_left fun w hw => ?_
      simp only [Function.comp_apply, Nat.succ_eq_add_one]
      congr 2
      omega
    rw [hcomp, ih]
    have h1 : S + 1 - 0 + m = S + m + 1 := by omega
    rw [h1]
    have h2 : S + 1 + m + 1 = S + m + 1 + 1 := by omega
    rw [h2]
    have := Nat.choose_succ_succ (S + m + 1) m
    simp only [Nat.succ_eq_add_one] at this
    omega

theorem stars_length (n S : ℕ) :
    (stars (n + 1) S).length = (S + n).choose n := by
  induction n generalizing S with
  | zero => simp [stars]
  | succ m ih =>
    rw [stars, List.length_flatMap]
    have hmap : (List.map (List.length ∘ fun w =>
        (stars (m + 1) (S - w)).map (fun t => w :: t)) (List.range (S + 1))) =
        (List.range (S + 1)).map fun w => (S - w + m).choose m := by
      refine List.map_congr_left fun w _ => ?_
      simp only [Function.comp_apply, List.length_map]
      rw [ih (S - w)]
    rw [hmap, stars_length_sum]
    congr 1

/-- C7. For `n ≥ 1` protocols and `step_pct ≥ 1`, the unbounded grid emits
exactly the vectors `(k 1 / S, ..., k n / S)` over nonnegative integer vectors
`k` summing to `S = 100 / step_pct`, each exactly once, hence exactly
`C(S + n - 1, n - 1)` candidates. -/
theorem C7_grid_cardinality (n step_pct : ℕ) (hn : 1 ≤ n) (_hs : 1 ≤ step_pct) :
    (generate_weight_grid n step_pct).length = (100 / step_pct + n - 1).choose (n - 1) ∧
    (generate_weight_grid n step_pct).Nodup ∧
    ∀ v : List ℚ, v ∈ generate_weight_grid n step_pct ↔
      ∃ k : List ℕ, k.length = n ∧ k.sum = 100 / step_pct ∧
        v = k.map fun ki : ℕ => (ki : ℚ) * (1 / ((100 / step_pct : ℕ) : ℚ)) := by
  obtain ⟨m, rfl⟩ : ∃ m, n = m + 1 := ⟨n - 1, by omega⟩
  have hgrid : generate_weight_grid (m + 1) step_pct =
      (stars (m + 1) (100 / step_pct)).map
        (List.map fun k : ℕ => (k : ℚ) * (1 / ((100 / step_pct : ℕ) : ℚ))) := by
    unfold generate_weight_grid
    exact generate_weight_rec_eq_stars _ m _
  refine ⟨?_, ?_, ?_⟩
  · rw [hgrid, List.length_map, stars_length m _]
    congr 1
  · rw [hgrid]
    by_cases hS : 100 / step_pct = 0
    · have h1 : ((stars (m + 1) (100 / step_pct)).map
          (List.map fun k : ℕ => (k : ℚ) * (1 / ((100 / step_pct : ℕ) : ℚ)))).length = 1 := by
        rw [List.length_map, stars_length m _, hS]
        simp
      obtain ⟨a, ha⟩ := List.length_eq_one.mp h1
      rw [ha]
      exact List.nodup_singleton a
    · refine (stars_nodup m _).map ?_
      rw [List.map_injective_iff]
      intro a b hab
      have hstep : (1 / ((100 / step_pct : ℕ) : ℚ)) ≠ 0 := by
        simp only [ne_eq, one_div, inv_eq_zero, Nat.cast_eq_zero]
        exact hS
      have : (a : ℚ) = (b : ℚ) := by
        exact mul_right_cancel₀ hstep hab
      exact_mod_cast this
  · intro v
    rw [hgrid, List.mem_map]
    constructor
    · rintro ⟨k, hk, rfl⟩
      obtain ⟨h1, h2⟩ := (stars_mem m _ k).mp hk
      exact ⟨k, h1, h2, rfl⟩
    · rintro ⟨k, h1, h2, rfl⟩
      exact ⟨k, (stars_mem m _ k).mpr ⟨h1, h2⟩, rfl⟩

-- ============================================================================
-- Optimizer (`rebalance/mod.rs` lines 693-890)
-- ============================================================================

/-- Rust `as usize` on a nonnegative-or-saturating float: truncate toward
zero, clamping negatives to zero. -/
def ratToNat (q : ℚ) : ℕ := (⌊q⌋).toNat

/-- Rust `as u128` on a float: truncate toward zero, saturating at the type
bounds. -/
def ratToU128 (q : ℚ) : ℕ := min (⌊q⌋).toNat (2 ^ 128 - 1)

/-- Zero-padded 32-byte hex rendering, 0x followed by 64 hex digits
(the format-064x calls in the source). -/
def hexWord (v : ℕ) : String :=
  let ds := Nat.toDigits 16 v
  "0x" ++ String.mk (List.replicate (64 - ds.length) (Char.ofNat 48)) ++ String.mk ds

/-- Optimization result (`OptimizationResult` in `rebalance/mod.rs`). -/
structure OptimizationResult where
  allocations : List String
  allocations_decimal : List ℚ
  weights : List String
  weights_decimal : List ℚ
  expected_return_12h : ℚ
  expected_apy_weighted : ℚ
  apys : List ℚ
  scenarios_evaluated : ℕ
  time_ms : ℚ
deriving Repr, DecidableEq

instance : Inhabited ProtocolState := ⟨⟨0, 0, 0, 0, 0, false, 0⟩⟩

/-- Loop body of `is_valid_allocation`, recursing over the allocation list
with its index (the source indexes `protocols[i]`; inside `optimize` the two
lists always have equal length). -/
def is_valid_go (protocols : List ProtocolState) (blocked_mask : ℕ)
    (max_pool_share min_allocation : ℚ) : ℕ → List ℚ → Bool
  | _, [] => true
  | i, alloc :: rest =>
    let protocol := protocols.getD i default
    let is_blocked := blocked_mask &&& 2 ^ i ≠ 0
    if is_blocked ∧ alloc > protocol.our_balance then false
    else
      let delta := alloc - protocol.our_balance
      let new_pool_supply := protocol.pool_supply + delta
      if new_pool_supply > 0 ∧ alloc > new_pool_supply * max_pool_share then false
      else if alloc > 0 ∧ alloc < min_allocation then false
      else is_valid_go protocols blocked_mask max_pool_share min_allocation (i + 1) rest

/-- Constraint filter (`is_valid_allocation`). -/
def is_valid_allocation (allocations : List ℚ) (protocols : List ProtocolState)
    (blocked_mask : ℕ) (max_pool_share min_allocation : ℚ) : Bool :=
  is_valid_go protocols blocked_mask max_pool_share min_allocation 0 allocations

/-- TVL-cap numerators used for the bounded grid (`max_allocs` in `optimize`). -/
def max_allocs (protocols : List ProtocolState) (max_pool_share : ℚ) : List ℚ :=
  protocols.map fun p => p.pool_supply * max_pool_share / (1 - max_pool_share)

/-- Per-axis percentage caps for the bounded grid (`max_weights_pct` in
`optimize`): the TVL-derived cap, overridden for blocked protocols by the
current-balance percentage. -/
def max_weights_pct (total_assets : ℚ) (protocols : List ProtocolState)
    (blocked_mask : ℕ) (max_pool_share : ℚ) : List ℕ :=
  let base := (max_allocs protocols max_pool_share).map fun ma =>
    min (ratToNat (ma / total_assets * 100) + 1) 100
  let current_balances := protocols.map (·.our_balance)
  (List.range protocols.length).map fun i =>
    if blocked_mask &&& 2 ^ i ≠ 0 then
      max (ratToNat (current_balances.getD i 0 / total_assets * 100)) 0
    else base.getD i 0

/-- Candidate grid selected by `optimize`: bounded when `total_assets > 0`,
otherwise unbounded. -/
def candidate_grid (total_assets : ℚ) (protocols : List ProtocolState)
    (blocked_mask : ℕ) (config : OptimizerConfig) : List (List ℚ) :=
  if total_assets > 0 then
    generate_bounded_weight_grid config.step_pct
      (max_weights_pct total_assets protocols blocked_mask config.max_pool_share)
  else
    generate_weight_grid protocols.length config.step_pct

/-- Per-candidate APY evaluation in `optimize`: IRM parameters when supplied
(RPC-fed mode), per-protocol defaults otherwise (legacy mode). -/
def candidate_apys (protocols : List ProtocolState) (irm_params : Option (List IRMParams))
    (allocations : List ℚ) : List ℚ :=
  match irm_params with
  | some irms =>
      ((allocations.zip protocols).zip irms).map fun x =>
        calc_supply_apy_with_irm x.1.2 (x.1.1 - x.1.2.our_balance) x.2
  | none =>
      (allocations.zip protocols).map fun x =>
        calc_supply_apy x.2 (x.1 - x.2.our_balance)

/-- Dollarized 12-hour expected return of a candidate (`return_12h` in
`optimize`; `time_factor = 12 / 8760`). -/
def return_12h (allocations apys : List ℚ) : ℚ :=
  ((allocations.zip apys).map fun x => x.1 * x.2 * (12 / 8760)).sum

/-- Running best of the argmax scan (`best_return` / `best_allocations` /
`best_apys` in `optimize`; `none` models the `f64::NEG_INFINITY` start). -/
structure BestState where
  ret : ℚ
  allocations : List ℚ
  apys : List ℚ
deriving Repr, DecidableEq

/-- Evaluation of one candidate weight vector inside the scan loop. -/
def eval_candidate (total_assets : ℚ) (protocols : List ProtocolState)
    (irm_params : Option (List IRMParams)) (combo : List ℚ) : BestState :=
  let allocations := combo.map (· * total_assets)
  let apys := candidate_apys protocols irm_params allocations
  ⟨return_12h allocations apys, allocations, apys⟩

/-- One iteration of the scan loop of `optimize`: skip invalid candidates,
keep the strictly better of evaluated ones (ties keep the earlier). -/
def best_step (total_assets : ℚ) (protocols : List ProtocolState) (blocked_mask : ℕ)
    (max_pool_share min_allocation : ℚ) (irm_params : Option (List IRMParams))
    (best : Option BestState) (combo : List ℚ) : Option BestState :=
  let allocations := combo.map (· * total_assets)
  if is_valid_allocation allocations protocols blocked_mask max_pool_share min_allocation then
    let c := eval_candidate total_assets protocols irm_params combo
    match best with
    | none => some c
    | some b => if c.ret > b.ret then some c else some b
  else best

/-- WAD scale. -/
def WAD_F64 : ℚ := 1000000000000000000

/-- Grid-search optimizer (`optimize` in `rebalance/mod.rs`). The wall-clock
measurement is the explicit `elapsed_ms` input (see the header comment). -/
def optimize (total_assets : ℚ) (protocols : List ProtocolState) (blocked_mask : ℕ)
    (config : OptimizerConfig) (irm_params : Option (List IRMParams)) (elapsed_ms : ℚ) :
    Except String OptimizationResult :=
  let n_protocols := protocols.length
  let weights := candidate_grid total_assets protocols blocked_mask config
  let n_scenarios := weights.length
  if n_scenarios = 0 then .error "No valid weight combinations generated"
  else
    match weights.foldl (best_step total_assets protocols blocked_mask
        config.max_pool_share config.min_allocation irm_params) none with
    | some b =>
        let weights_decimal :=
          if total_assets > 0 then b.allocations.map (· / total_assets)
          else List.replicate n_protocols 0
        let weighted_apy :=
          if total_assets > 0 then
            ((b.allocations.zip b.apys).map fun x => x.1 * x.2).sum / total_assets
          else 0
        .ok ⟨b.allocations.map fun a => hexWord (ratToU128 a),
             b.allocations,
             weights_decimal.map fun w => hexWord (ratToU128 (w * WAD_F64)),
             weights_decimal,
             b.ret,
             weighted_apy,
             b.apys,
             n_scenarios,
             elapsed_ms⟩
    | none =>
        let current_balances := protocols.map (·.our_balance)
        let current_apys := protocols.map (·.current_apy)
        let weights_decimal :=
          if total_assets > 0 then current_balances.map (· / total_assets)
          else List.replicate n_protocols 0
        .ok ⟨current_balances.map fun a => hexWord (ratToU128 a),
             current_balances,
             weights_decimal.map fun w => hexWord (ratToU128 (w * WAD_F64)),
             weights_decimal,
             0,
             0,
             current_apys,
             n_scenarios,
             elapsed_ms⟩

/-- Candidates of the grid that pass the validity filter (statement-level
abbreviation used by the claims). -/
def valid_candidates (total_assets : ℚ) (protocols : List ProtocolState)
    (blocked_mask : ℕ) (config : OptimizerConfig) : List (List ℚ) :=
  (candidate_grid total_assets protocols blocked_mask config).filter fun c =>
    is_valid_allocation (c.map (· * total_assets)) protocols blocked_mask
      config.max_pool_share config.min_allocation

/-- Score of a candidate as the C1 claim words it. -/
def candidate_score (total_assets : ℚ) (protocols : List ProtocolState)
    (irm_params : Option (List IRMParams)) (combo : List ℚ) : ℚ :=
  return_12h (combo.map (· * total_assets))
    (candidate_apys protocols irm_params (combo.map (· * total_assets)))

-- ============================================================================
-- Argmax-scan lemmas
-- ============================================================================

/-- Update of the running best by an already-evaluated candidate. -/
def pick_step (best : Option BestState) (c : BestState) : Option BestState :=
  match best with
  | none => some c
  | some b => if c.ret > b.ret then some c else some b

/-- First-seen argmax of a list of evaluated candidates, seeded with `y`. -/
def pick_best (y : BestState) : List BestState → BestState
  | [] => y
  | x :: xs => pick_best (if x.ret > y.ret then x else y) xs

theorem foldl_best_step_eq (total_assets : ℚ) (protocols : List ProtocolState)
    (blocked_mask : ℕ) (max_pool_share min_allocation : ℚ)
    (irm_params : Option (List IRMParams)) (weights : List (List ℚ))
    (acc : Option BestState) :
    weights.foldl (best_step total_assets protocols blocked_mask max_pool_share
        min_allocation irm_params) acc =
      ((weights.filter fun c => is_valid_allocation (c.map (· * total_assets)) protocols
          blocked_mask max_pool_share min_allocation).map
        (eval_candidate total_assets protocols irm_params)).foldl pick_step acc := by
  induction weights generalizing acc with
  | nil => rfl
  | cons c cs ih =>
    simp only [List.foldl_cons, List.filter_cons]
    by_cases hc : is_valid_allocation (c.map (· * total_assets)) protocols blocked_mask
        max_pool_share min_allocation
    · rw [if_pos hc]
      simp only [List.map_cons, List.foldl_cons]
      rw [← ih]
      congr 1
      simp only [best_step, hc, if_true]
      cases acc <;> rfl
    · rw [if_neg hc]
      rw [← ih]
      congr 1
      simp only [best_step, hc]
      rfl

theorem foldl_pick_step_some (l : List BestState) (y : BestState) :
    l.foldl pick_step (some y) = some (pick_best y l) := by
  induction l generalizing y with
  | nil => rfl
  | cons x xs ih =>
    simp only [List.foldl_cons, pick_step, pick_best]
    split <;> exact ih _

theorem pick_best_mem (l : List BestState) (y : BestState) : pick_best y l ∈ y :: l := by
  induction l generalizing y with
  | nil => simp [pick_best]
  | cons x xs ih =>
    simp only [pick_best]
    have := ih (if x.ret > y.ret then x else y)
    rcases List.mem_cons.mp this with h | h
    · rw [h]
      split <;> simp
    · simp [List.mem_cons.mpr (Or.inr (List.mem_cons.mpr (Or.inr h)))]

theorem pick_best_le (l : List BestState) (y : BestState) :
    ∀ z ∈ y :: l, z.ret ≤ (pick_best y l).ret := by
  induction l generalizing y with
  | nil =>
    intro z hz
    simp only [List.mem_singleton] at hz
    subst hz
    exact le_refl _
  | cons x xs ih =>
    intro z hz
    simp only [pick_best]
    by_cases hx : x.ret > y.ret
    · rw [if_pos hx]
      rcases List.mem_cons.mp hz with h | h
      · subst h
        exact le_trans (le_of_lt hx) (ih x x (List.mem_cons_self x xs))
      · rcases List.mem_cons.mp h with h2 | h2
        · rw [h2]
          exact ih x x (List.mem_cons_self _ _)
        · exact ih x z (List.mem_cons.mpr (Or.inr h2))
    · rw [if_neg hx]
      rcases List.mem_cons.mp hz with h | h
      · rw [h]
        exact ih y y (List.mem_cons_self _ _)
      · rcases List.mem_cons.mp h with h2 | h2
        · rw [h2]
          push_neg at hx
          exact le_trans hx (ih y y (List.mem_cons_self _ _))
        · exact ih y z (List.mem_cons.mpr (Or.inr h2))

theorem pick_best_stable (l : List BestState) (y : BestState)
    (h : (pick_best y l).ret ≤ y.ret) : pick_best y l = y := by
  induction l generalizing y with
  | nil => rfl
  | cons x xs ih =>
    simp only [pick_best] at h ⊢
    by_cases hx : x.ret > y.ret
    · exfalso
      rw [if_pos hx] at h
      have hxle : x.ret ≤ (pick_best x xs).ret := pick_best_le xs x x (List.mem_cons_self _ _)
      linarith
    · rw [if_neg hx] at h ⊢
      exact ih y h

theorem find?_pick_best (l : List BestState) (y : BestState) :
    List.find? (fun z => z.ret == (pick_best y l).ret) (y :: l) = some (pick_best y l) := by
  induction l generalizing y with
  | nil =>
    simp [pick_best, List.find?]
  | cons x xs ih =>
    by_cases hy : y.ret = (pick_best y (x :: xs)).ret
    · have hp : pick_best y (x :: xs) = y := pick_best_stable _ _ (le_of_eq hy.symm)
      rw [hp]
      simp [List.find?]
    · have hfy : (fun z => z.ret == (pick_best y (x :: xs)).ret) y = false := by
        simp only [beq_iff_eq]
        exact decide_eq_false hy
      rw [List.find?_cons_of_neg _ (by simp_all)]
      simp only [pick_best] at hy ⊢
      by_cases hx : x.ret > y.ret
      · rw [if_pos hx] at hy ⊢
        exact ih x
      · rw [if_neg hx] at hy ⊢
        have hylt : y.ret < (pick_best y xs).ret :=
          lt_of_le_of_ne (pick_best_le xs y y (List.mem_cons_self _ _)) hy
        have hxlt : x.ret < (pick_best y xs).ret := by
          push_neg at hx
          linarith
        have hfx : (fun z => z.ret == (pick_best y xs).ret) x = false := by
          simp only [beq_iff_eq]
          exact decide_eq_false (ne_of_lt hxlt)
        rw [List.find?_cons_of_neg _ (by simp_all)]
        have := ih y
        rwa [List.find?_cons_of_neg _ (by simp_all)] at this

theorem candidate_score_eq (total_assets : ℚ) (protocols : List ProtocolState)
    (irm_params : Option (List IRMParams)) (c : List ℚ) :
    candidate_score total_assets protocols irm_params c =
      (eval_candidate total_assets protocols irm_params c).ret := rfl

theorem eval_candidate_allocations (total_assets : ℚ) (protocols : List ProtocolState)
    (irm_params : Option (List IRMParams)) (c : List ℚ) :
    (eval_candidate total_assets protocols irm_params c).allocations =
      c.map (· * total_assets) := rfl

theorem eval_candidate_apys (total_assets : ℚ) (protocols : List ProtocolState)
    (irm_params : Option (List IRMParams)) (c : List ℚ) :
    (eval_candidate total_assets protocols irm_params c).apys =
      candidate_apys protocols irm_params (c.map (· * total_assets)) := rfl

theorem optimize_fold_valids (total_assets : ℚ) (protocols : List ProtocolState)
    (blocked_mask : ℕ) (config : OptimizerConfig) (irm_params : Option (List IRMParams)) :
    (candidate_grid total_assets protocols blocked_mask config).foldl
        (best_step total_assets protocols blocked_mask config.max_pool_share
          config.min_allocation irm_params) none =
      ((valid_candidates total_assets protocols blocked_mask config).map
        (eval_candidate total_assets protocols irm_params)).foldl pick_step none := by
  rw [foldl_best_step_eq]
  rfl

theorem optimize_spec_some (total_assets : ℚ) (protocols : List ProtocolState)
    (blocked_mask : ℕ) (config : OptimizerConfig) (irm_params : Option (List IRMParams))
    (elapsed_ms : ℚ) (v : List ℚ) (vs : List (List ℚ))
    (hv : valid_candidates total_assets protocols blocked_mask config = v :: vs) :
    ∃ r, optimize total_assets protocols blocked_mask config irm_params elapsed_ms =
        Except.ok r ∧
      r.expected_return_12h = (pick_best (eval_candidate total_assets protocols irm_params v)
        (vs.map (eval_candidate total_assets protocols irm_params))).ret ∧
      r.allocations_decimal = (pick_best (eval_candidate total_assets protocols irm_params v)
        (vs.map (eval_candidate total_assets protocols irm_params))).allocations ∧
      r.apys = (pick_best (eval_candidate total_assets protocols irm_params v)
        (vs.map (eval_candidate total_assets protocols irm_params))).apys ∧
      r.scenarios_evaluated = (candidate_grid total_assets protocols blocked_mask config).length ∧
      r.time_ms = elapsed_ms := by
  have hgne : ¬((candidate_grid total_assets protocols blocked_mask config).length = 0) := by
    intro h0
    rw [valid_candidates, List.length_eq_zero.mp h0] at hv
    simp at hv
  have hfold : (candidate_grid total_assets protocols blocked_mask config).foldl
      (best_step total_assets protocols blocked_mask config.max_pool_share
        config.min_allocation irm_params) none =
      some (pick_best (eval_candidate total_assets protocols irm_params v)
        (vs.map (eval_candidate total_assets protocols irm_params))) := by
    rw [optimize_fold_valids, hv]
    simp only [List.map_cons, List.foldl_cons]
    exact foldl_pick_step_some _ _
  simp only [optimize]
  rw [if_neg hgne, hfold]
  exact ⟨_, rfl, rfl, rfl, rfl, rfl, rfl⟩

theorem optimize_spec_none (total_assets : ℚ) (protocols : List ProtocolState)
    (blocked_mask : ℕ) (config : OptimizerConfig) (irm_params : Option (List IRMParams))
    (elapsed_ms : ℚ)
    (hg : candidate_grid total_assets protocols blocked_mask config ≠ [])
    (hv : valid_candidates total_assets protocols blocked_mask config = []) :
    ∃ r, optimize total_assets protocols blocked_mask config irm_params elapsed_ms =
        Except.ok r ∧
      r.allocations_decimal = protocols.map (·.our_balance) ∧
      r.expected_return_12h = 0 ∧
      r.expected_apy_weighted = 0 ∧
      r.apys = protocols.map (·.current_apy) ∧
      r.scenarios_evaluated = (candidate_grid total_assets protocols blocked_mask config).length ∧
      r.time_ms = elapsed_ms := by
  have hgne : ¬((candidate_grid total_assets protocols blocked_mask config).length = 0) := by
    intro h0
    exact hg (List.length_eq_zero.mp h0)
  have hfold : (candidate_grid total_assets protocols blocked_mask config).foldl
      (best_step total_assets protocols blocked_mask config.max_pool_share
        config.min_allocation irm_params) none = none := by
    rw [optimize_fold_valids, hv]
    rfl
  simp only [optimize]
  rw [if_neg hgne, hfold]
  exact ⟨_, rfl, rfl, rfl, rfl, rfl, rfl, rfl⟩

-- ============================================================================
-- Claim C1: argmax optimality with first-seen tie-breaking
-- ============================================================================

/-- C1. When at least one grid candidate passes the validity filter, the
returned `expected_return_12h` is the maximum candidate score (it is attained
and bounds every valid candidate), and the returned allocations and APYs are
those of the first valid candidate, in grid order, attaining it. -/
theorem C1_argmax_optimality (total_assets : ℚ) (protocols : List ProtocolState)
    (blocked_mask : ℕ) (config : OptimizerConfig) (irm_params : Option (List IRMParams))
    (elapsed_ms : ℚ)
    (h : valid_candidates total_assets protocols blocked_mask config ≠ []) :
    ∃ r c₀, optimize total_assets protocols blocked_mask config irm_params elapsed_ms =
        Except.ok r ∧
      (∃ c ∈ valid_candidates total_assets protocols blocked_mask config,
        candidate_score total_assets protocols irm_params c = r.expected_return_12h) ∧
      (∀ c ∈ valid_candidates total_assets protocols blocked_mask config,
        candidate_score total_assets protocols irm_params c ≤ r.expected_return_12h) ∧
      (valid_candidates total_assets protocols blocked_mask config).find?
        (fun c => candidate_score total_assets protocols irm_params c ==
          r.expected_return_12h) = some c₀ ∧
      r.allocations_decimal = c₀.map (· * total_assets) ∧
      r.apys = candidate_apys protocols irm_params (c₀.map (· * total_assets)) := by
  obtain ⟨v, vs, hv⟩ := List.exists_cons_of_ne_nil h
  obtain ⟨r, hopt, hret, halloc, hapys, _, _⟩ :=
    optimize_spec_some total_assets protocols blocked_mask config irm_params elapsed_ms v vs hv
  have hmapeq : (valid_candidates total_assets protocols blocked_mask config).map
      (eval_candidate total_assets protocols irm_params) =
      eval_candidate total_assets protocols irm_params v ::
        vs.map (eval_candidate total_assets protocols irm_params) := by
    rw [hv, List.map_cons]
  have hbmem : pick_best (eval_candidate total_assets protocols irm_params v)
      (vs.map (eval_candidate total_assets protocols irm_params)) ∈
      (valid_candidates total_assets protocols blocked_mask config).map
        (eval_candidate total_assets protocols irm_params) := by
    rw [hmapeq]
    exact pick_best_mem _ _
  obtain ⟨cmax, hcmax_mem, hcmax_eq⟩ := List.mem_map.mp hbmem
  have hfind := find?_pick_best
    (vs.map (eval_candidate total_assets protocols irm_params))
    (eval_candidate total_assets protocols irm_params v)
  rw [← hmapeq, List.find?_map] at hfind
  obtain ⟨c₀, hc₀_find, hc₀_eq⟩ := Option.map_eq_some'.mp hfind
  refine ⟨r, c₀, hopt, ⟨cmax, hcmax_mem, ?_⟩, ?_, ?_, ?_, ?_⟩
  · rw [candidate_score_eq, hcmax_eq, hret]
  · intro c hc
    rw [candidate_score_eq, hret]
    refine pick_best_le _ _ _ ?_
    rw [← hmapeq]
    exact List.mem_map_of_mem _ hc
  · rw [← hc₀_find]
    congr 1
    funext c
    rw [hret]
    rfl
  · rw [halloc, ← hc₀_eq, eval_candidate_allocations]
  · rw [hapys, ← hc₀_eq, eval_candidate_apys]

/-- C1 witness: one valid single-protocol instance, hypothesis decided by
evaluation. -/
theorem C1_argmax_optimality_witness :
    valid_candidates 2000 [⟨0, 1000000, 0, 0, 0.02, false, 1⟩] 0 ⟨100, 0.2, 1000⟩ ≠ [] ∧
    (∃ r c₀, optimize 2000 [⟨0, 1000000, 0, 0, 0.02, false, 1⟩] 0 ⟨100, 0.2, 1000⟩ none 0 =
        Except.ok r ∧
      (∃ c ∈ valid_candidates 2000 [⟨0, 1000000, 0, 0, 0.02, false, 1⟩] 0 ⟨100, 0.2, 1000⟩,
        candidate_score 2000 [⟨0, 1000000, 0, 0, 0.02, false, 1⟩] none c =
          r.expected_return_12h) ∧
      (∀ c ∈ valid_candidates 2000 [⟨0, 1000000, 0, 0, 0.02, false, 1⟩] 0 ⟨100, 0.2, 1000⟩,
        candidate_score 2000 [⟨0, 1000000, 0, 0, 0.02, false, 1⟩] none c ≤
          r.expected_return_12h) ∧
      (valid_candidates 2000 [⟨0, 1000000, 0, 0, 0.02, false, 1⟩] 0 ⟨100, 0.2, 1000⟩).find?
        (fun c => candidate_score 2000 [⟨0, 1000000, 0, 0, 0.02, false, 1⟩] none c ==
          r.expected_return_12h) = some c₀ ∧
      r.allocations_decimal = c₀.map (· * 2000) ∧
      r.apys = candidate_apys [⟨0, 1000000, 0, 0, 0.02, false, 1⟩] none
        (c₀.map (· * 2000))) := by
  have hval : valid_candidates 2000 [⟨0, 1000000, 0, 0, 0.02, false, 1⟩] 0
      ⟨100, 0.2, 1000⟩ = [[1]] := by
    norm_num [valid_candidates, candidate_grid, generate_bounded_weight_grid,
      generate_bounded_rec, max_weights_pct, max_allocs, ratToNat, is_valid_allocation,
      is_valid_go, List.filter]
  have hne : valid_candidates 2000 [⟨0, 1000000, 0, 0, 0.02, false, 1⟩] 0
      ⟨100, 0.2, 1000⟩ ≠ [] := by
    rw [hval]
    simp
  exact ⟨hne, C1_argmax_optimality 2000 _ 0 ⟨100, 0.2, 1000⟩ none 0 hne⟩

-- ============================================================================
-- Claim C2: validity closure of returned allocations
-- ============================================================================

/-- Invariants exactly as the C2 claim words them: blocked rule,
unconditional pool-share cap, and min-allocation floor. -/
def claimed_invariants (allocations : List ℚ) (protocols : List ProtocolState)
    (blocked_mask : ℕ) (max_pool_share min_allocation : ℚ) : Prop :=
  ∀ i < allocations.length,
    ((blocked_mask &&& 2 ^ i ≠ 0) →
      allocations.getD i 0 ≤ (protocols.getD i default).our_balance) ∧
    allocations.getD i 0 ≤ ((protocols.getD i default).pool_supply + allocations.getD i 0 -
      (protocols.getD i default).our_balance) * max_pool_share ∧
    (allocations.getD i 0 ≠ 0 → min_allocation ≤ allocations.getD i 0)

/-- C2 counterexample: with one unblocked protocol holding 500 tokens,
`total_assets = 2000` and `min_allocation = 5000`, the only grid candidate is
invalid, so the optimizer returns the current allocation `[500]` — which is
non-zero yet below `min_allocation`, violating the claimed invariants. -/
theorem C2_counterexample :
    (optimize 2000 [⟨500, 1000000, 0, 0, 0.02, false, 1⟩] 0 ⟨100, 0.2, 5000⟩ none 0).map
        (fun r => r.allocations_decimal) = Except.ok [500] ∧
    ¬ claimed_invariants [500] [⟨500, 1000000, 0, 0, 0.02, false, 1⟩] 0 0.2 5000 := by
  constructor
  · have hg : candidate_grid 2000 [⟨500, 1000000, 0, 0, 0.02, false, 1⟩] 0
        ⟨100, 0.2, 5000⟩ ≠ [] := by
      norm_num [candidate_grid, generate_bounded_weight_grid, generate_bounded_rec,
        max_weights_pct, max_allocs, ratToNat]
      decide
    have hv : valid_candidates 2000 [⟨500, 1000000, 0, 0, 0.02, false, 1⟩] 0
        ⟨100, 0.2, 5000⟩ = [] := by
      norm_num [valid_candidates, candidate_grid, generate_bounded_weight_grid,
        generate_bounded_rec, max_weights_pct, max_allocs, ratToNat, is_valid_allocation,
        is_valid_go, List.filter]
    obtain ⟨r, hopt, halloc, -, -, -, -, -⟩ :=
      optimize_spec_none 2000 [⟨500, 1000000, 0, 0, 0.02, false, 1⟩] 0
        ⟨100, 0.2, 5000⟩ none 0 hg hv
    rw [hopt]
    simp only [Except.map, halloc]
    rfl
  · intro h
    have := (h 0 (by norm_num)).2.2
    norm_num at this

/-- C2 (amended). Whenever at least one grid candidate passes the validity
filter, the returned allocation vector itself passes the validity filter
(blocked rule; pool-share cap when the post-delta pool supply is positive;
min-allocation floor). The degenerate fallback, which returns the current
balances, is exempt: see the counterexample. -/
theorem C2_validity_closure (total_assets : ℚ) (protocols : List ProtocolState)
    (blocked_mask : ℕ) (config : OptimizerConfig) (irm_params : Option (List IRMParams))
    (elapsed_ms : ℚ)
    (h : valid_candidates total_assets protocols blocked_mask config ≠ []) :
    ∃ r, optimize total_assets protocols blocked_mask config irm_params elapsed_ms =
        Except.ok r ∧
      is_valid_allocation r.allocations_decimal protocols blocked_mask
        config.max_pool_share config.min_allocation = true := by
  obtain ⟨v, vs, hv⟩ := List.exists_cons_of_ne_nil h
  obtain ⟨r, hopt, -, halloc, -, -, -⟩ :=
    optimize_spec_some total_assets protocols blocked_mask config irm_params elapsed_ms v vs hv
  have hbmem : pick_best (eval_candidate total_assets protocols irm_params v)
      (vs.map (eval_candidate total_assets protocols irm_params)) ∈
      (valid_candidates total_assets protocols blocked_mask config).map
        (eval_candidate total_assets protocols irm_params) := by
    rw [hv, List.map_cons]
    exact pick_best_mem _ _
  obtain ⟨c, hc_mem, hc_eq⟩ := List.mem_map.mp hbmem
  have hc_valid := (List.mem_filter.mp hc_mem).2
  refine ⟨r, hopt, ?_⟩
  rw [halloc, ← hc_eq, eval_candidate_allocations]
  exact hc_valid

/-- C2 witness: the amended theorem applied at a concrete valid instance. -/
theorem C2_validity_closure_witness :
    valid_candidates 2000 [⟨0, 1000000, 0, 0, 0.02, false, 1⟩] 0 ⟨100, 0.2, 1500⟩ ≠ [] ∧
    (∃ r, optimize 2000 [⟨0, 1000000, 0, 0, 0.02, false, 1⟩] 0 ⟨100, 0.2, 1500⟩ none 0 =
        Except.ok r ∧
      is_valid_allocation r.allocations_decimal [⟨0, 1000000, 0, 0, 0.02, false, 1⟩] 0
        0.2 1500 = true) := by
  have hval : valid_candidates 2000 [⟨0, 1000000, 0, 0, 0.02, false, 1⟩] 0
      ⟨100, 0.2, 1500⟩ = [[1]] := by
    norm_num [valid_candidates, candidate_grid, generate_bounded_weight_grid,
      generate_bounded_rec, max_weights_pct, max_allocs, ratToNat, is_valid_allocation,
      is_valid_go, List.filter]
  have hne : valid_candidates 2000 [⟨0, 1000000, 0, 0, 0.02, false, 1⟩] 0
      ⟨100, 0.2, 1500⟩ ≠ [] := by
    rw [hval]
    simp
  exact ⟨hne, C2_validity_closure 2000 _ 0 ⟨100, 0.2, 1500⟩ none 0 hne⟩

-- ============================================================================
-- Claim C3: the degenerate no-valid-candidate path
-- ============================================================================

/-- C3 counterexample: with one protocol of zero pool supply and positive
total assets, the bounded grid is empty, no candidate passes the (vacuous)
validity filter, and `optimize` returns an error instead of the claimed
success envelope. -/
theorem C3_counterexample :
    valid_candidates 2000 [⟨0, 0, 0, 0, 0.02, false, 1⟩] 0 ⟨100, 0.2, 5000⟩ = [] ∧
    optimize 2000 [⟨0, 0, 0, 0, 0.02, false, 1⟩] 0 ⟨100, 0.2, 5000⟩ none 0 =
      Except.error "No valid weight combinations generated" := by
  have hg : candidate_grid 2000 [⟨0, 0, 0, 0, 0.02, false, 1⟩] 0 ⟨100, 0.2, 5000⟩ = [] := by
    norm_num [candidate_grid, generate_bounded_weight_grid, generate_bounded_rec,
      max_weights_pct, max_allocs, ratToNat]
  constructor
  · rw [valid_candidates, hg]
    rfl
  · simp only [optimize, hg]
    rfl

/-- C3 (amended). Whenever the grid is non-empty but no candidate passes the
validity filter, `optimize` returns a success result carrying the current
balances verbatim, zero expected return, the per-protocol current APYs and
the grid size as `scenarios_evaluated`; when the grid itself is empty, it
returns an error instead (see the counterexample). -/
theorem C3_degenerate_success (total_assets : ℚ) (protocols : List ProtocolState)
    (blocked_mask : ℕ) (config : OptimizerConfig) (irm_params : Option (List IRMParams))
    (elapsed_ms : ℚ)
    (hg : candidate_grid total_assets protocols blocked_mask config ≠ [])
    (hv : valid_candidates total_assets protocols blocked_mask config = []) :
    ∃ r, optimize total_assets protocols blocked_mask config irm_params elapsed_ms =
        Except.ok r ∧
      r.allocations_decimal = protocols.map (·.our_balance) ∧
      r.expected_return_12h = 0 ∧
      r.apys = protocols.map (·.current_apy) ∧
      r.scenarios_evaluated =
        (candidate_grid total_assets protocols blocked_mask config).length := by
  obtain ⟨r, hopt, h1, h2, -, h4, h5, -⟩ :=
    optimize_spec_none total_assets protocols blocked_mask config irm_params elapsed_ms hg hv
  exact ⟨r, hopt, h1, h2, h4, h5⟩

/-- C3 witness: the amended theorem applied at the concrete degenerate
instance of the C2 counterexample. -/
theorem C3_degenerate_success_witness :
    candidate_grid 2000 [⟨500, 1000000, 0, 0, 0.02, false, 1⟩] 0 ⟨100, 0.2, 5000⟩ ≠ [] ∧
    valid_candidates 2000 [⟨500, 1000000, 0, 0, 0.02, false, 1⟩] 0 ⟨100, 0.2, 5000⟩ = [] ∧
    (∃ r, optimize 2000 [⟨500, 1000000, 0, 0, 0.02, false, 1⟩] 0 ⟨100, 0.2, 5000⟩ none 0 =
        Except.ok r ∧
      r.allocations_decimal = [⟨500, 1000000, 0, 0, 0.02, false, 1⟩].map
        (ProtocolState.our_balance) ∧
      r.expected_return_12h = 0 ∧
      r.apys = [⟨500, 1000000, 0, 0, 0.02, false, 1⟩].map (ProtocolState.current_apy) ∧
      r.scenarios_evaluated = (candidate_grid 2000 [⟨500, 1000000, 0, 0, 0.02, false, 1⟩] 0
        ⟨100, 0.2, 5000⟩).length) := by
  have hg : candidate_grid 2000 [⟨500, 1000000, 0, 0, 0.02, false, 1⟩] 0
      ⟨100, 0.2, 5000⟩ ≠ [] := by
    norm_num [candidate_grid, generate_bounded_weight_grid, generate_bounded_rec,
      max_weights_pct, max_allocs, ratToNat]
    decide
  have hv : valid_candidates 2000 [⟨500, 1000000, 0, 0, 0.02, false, 1⟩] 0
      ⟨100, 0.2, 5000⟩ = [] := by
    norm_num [valid_candidates, candidate_grid, generate_bounded_weight_grid,
      generate_bounded_rec, max_weights_pct, max_allocs, ratToNat, is_valid_allocation,
      is_valid_go, List.filter]
  exact ⟨hg, hv,
    C3_degenerate_success 2000 _ 0 ⟨100, 0.2, 5000⟩ none 0 hg hv⟩

/-- C7 witness: the grid theorem applied at two protocols and a 50 percent
step, hypotheses decided by evaluation. -/
theorem C7_grid_cardinality_witness :
    1 ≤ 2 ∧ 1 ≤ 50 ∧
    ((generate_weight_grid 2 50).length = (100 / 50 + 2 - 1).choose (2 - 1) ∧
    (generate_weight_grid 2 50).Nodup ∧
    ∀ v : List ℚ, v ∈ generate_weight_grid 2 50 ↔
      ∃ k : List ℕ, k.length = 2 ∧ k.sum = 100 / 50 ∧
        v = k.map fun ki : ℕ => (ki : ℚ) * (1 / ((100 / 50 : ℕ) : ℚ))) :=
  ⟨by norm_num, by norm_num, C7_grid_cardinality 2 50 (by norm_num) (by norm_num)⟩

-- ============================================================================
-- Claim C6: per-axis caps of the bounded grid
-- ============================================================================

/-- C6 counterexample: with `pool_supply = 2048`, `max_pool_share = 1/2` and
`total_assets = 4096` the TVL percentage is exactly 50, so the claimed
integer ceiling gives a cap of 50, while the source computes
truncation-plus-one, giving 51. -/
theorem C6_counterexample :
    max_weights_pct 4096 [⟨0, 2048, 0, 0, 0.02, false, 1⟩] 0 0.5 = [51] ∧
    min ⌈(2048 * (0.5 : ℚ) / (1 - 0.5) / 4096 * 100)⌉₊ 100 = 50 ∧ (51 : ℕ) ≠ 50 := by
  refine ⟨?_, by norm_num, by norm_num⟩
  norm_num [max_weights_pct, max_allocs, ratToNat, List.range]
  rfl

/-- C6 (amended). For `total_assets > 0` the optimizer uses the bounded grid
with the caps of `max_weights_pct`, and the cap of protocol `i` is: for a
blocked protocol, the floor of `our_balance / total_assets * 100`; for an
unblocked one, the floor of
`pool_supply * max_pool_share / (1 - max_pool_share) / total_assets * 100`
plus one, capped at 100 (floor-plus-one, not the claimed integer ceiling). -/
theorem C6_cap_derivation (total_assets : ℚ) (protocols : List ProtocolState)
    (blocked_mask : ℕ) (config : OptimizerConfig) (htotal : 0 < total_assets) :
    candidate_grid total_assets protocols blocked_mask config =
      generate_bounded_weight_grid config.step_pct
        (max_weights_pct total_assets protocols blocked_mask config.max_pool_share) ∧
    ∀ i < protocols.length,
      (max_weights_pct total_assets protocols blocked_mask config.max_pool_share).getD i 0 =
        if blocked_mask &&& 2 ^ i ≠ 0 then
          ⌊(protocols.getD i default).our_balance / total_assets * 100⌋₊
        else
          min (⌊(protocols.getD i default).pool_supply * config.max_pool_share /
            (1 - config.max_pool_share) / total_assets * 100⌋₊ + 1) 100 := by
  constructor
  · rw [candidate_grid, if_pos htotal]
  · intro i hi
    rw [max_weights_pct]
    simp only [List.getD_eq_getElem?_getD, List.getElem?_map, List.getElem?_range hi,
      Option.map_some', Option.getD_some]
    by_cases hb : blocked_mask &&& 2 ^ i ≠ 0
    · rw [if_pos hb, if_pos hb]
      simp only [List.getD_eq_getElem?_getD, List.getElem?_map, List.getElem?_eq_getElem hi,
        Option.map_some', Option.getD_some, Nat.max_zero, ratToNat, Int.floor_toNat]
    · rw [if_neg hb, if_neg hb]
      rw [max_allocs]
      simp only [List.getD_eq_getElem?_getD, List.getElem?_map, List.map_map,
        List.getElem?_eq_getElem hi, Option.map_some', Option.getD_some,
        Function.comp_apply, ratToNat, Int.floor_toNat]

/-- C6 witness: the amended theorem applied at the counterexample instance. -/
theorem C6_cap_derivation_witness :
    (0 : ℚ) < 4096 ∧
    (candidate_grid 4096 [⟨0, 2048, 0, 0, 0.02, false, 1⟩] 0 ⟨100, 0.5, 1000⟩ =
      generate_bounded_weight_grid 100
        (max_weights_pct 4096 [⟨0, 2048, 0, 0, 0.02, false, 1⟩] 0 0.5) ∧
    ∀ i < [(⟨0, 2048, 0, 0, 0.02, false, 1⟩ : ProtocolState)].length,
      (max_weights_pct 4096 [⟨0, 2048, 0, 0, 0.02, false, 1⟩] 0 0.5).getD i 0 =
        if (0 : ℕ) &&& 2 ^ i ≠ 0 then
          ⌊([(⟨0, 2048, 0, 0, 0.02, false, 1⟩ : ProtocolState)].getD i
            default).our_balance / 4096 * 100⌋₊
        else
          min (⌊([(⟨0, 2048, 0, 0, 0.02, false, 1⟩ : ProtocolState)].getD i
            default).pool_supply * (0.5 : ℚ) / (1 - 0.5) / 4096 * 100⌋₊ + 1) 100) :=
  ⟨by norm_num,
    C6_cap_derivation 4096 [⟨0, 2048, 0, 0, 0.02, false, 1⟩] 0 ⟨100, 0.5, 1000⟩ (by norm_num)⟩

-- ============================================================================
-- Claim C4: determinism of the result
-- ============================================================================

/-- Projection of a result with the wall-clock field zeroed out. -/
def erase_time_ms (r : OptimizationResult) : OptimizationResult :=
  ⟨r.allocations, r.allocations_decimal, r.weights, r.weights_decimal,
    r.expected_return_12h, r.expected_apy_weighted, r.apys, r.scenarios_evaluated, 0⟩

/-- C4 counterexample: on the same input, two runs whose measured elapsed
times differ produce different results — `time_ms` is not a function of the
input. -/
theorem C4_counterexample :
    optimize 2000 [⟨0, 1000000, 0, 0, 0.02, false, 1⟩] 0 ⟨100, 0.2, 1000⟩ none 0 ≠
      optimize 2000 [⟨0, 1000000, 0, 0, 0.02, false, 1⟩] 0 ⟨100, 0.2, 1000⟩ none 1 ∧
    (optimize 2000 [⟨0, 1000000, 0, 0, 0.02, false, 1⟩] 0 ⟨100, 0.2, 1000⟩ none 0).map
      (fun r => r.time_ms) = Except.ok 0 ∧
    (optimize 2000 [⟨0, 1000000, 0, 0, 0.02, false, 1⟩] 0 ⟨100, 0.2, 1000⟩ none 1).map
      (fun r => r.time_ms) = Except.ok 1 := by
  have hval : valid_candidates 2000 [⟨0, 1000000, 0, 0, 0.02, false, 1⟩] 0
      ⟨100, 0.2, 1000⟩ = [[1]] := by
    norm_num [valid_candidates, candidate_grid, generate_bounded_weight_grid,
      generate_bounded_rec, max_weights_pct, max_allocs, ratToNat, is_valid_allocation,
      is_valid_go, List.filter]
  obtain ⟨r0, hopt0, -, -, -, -, ht0⟩ :=
    optimize_spec_some 2000 [⟨0, 1000000, 0, 0, 0.02, false, 1⟩] 0 ⟨100, 0.2, 1000⟩
      none 0 [1] [] hval
  obtain ⟨r1, hopt1, -, -, -, -, ht1⟩ :=
    optimize_spec_some 2000 [⟨0, 1000000, 0, 0, 0.02, false, 1⟩] 0 ⟨100, 0.2, 1000⟩
      none 1 [1] [] hval
  refine ⟨?_, ?_, ?_⟩
  · intro heq
    have := congrArg (Except.map fun r => r.time_ms) heq
    rw [hopt0, hopt1] at this
    simp only [Except.map] at this
    rw [ht0, ht1] at this
    exact absurd (Except.ok.injEq _ _ ▸ this) (by norm_num)
  · rw [hopt0]
    simp only [Except.map]
    rw [ht0]
  · rw [hopt1]
    simp only [Except.map]
    rw [ht1]

/-- C4 (amended). Every result field except `time_ms` is a deterministic
function of the input alone: two runs whose clock measurements differ agree
after erasing `time_ms`. -/
theorem C4_determinism_modulo_time (total_assets : ℚ) (protocols : List ProtocolState)
    (blocked_mask : ℕ) (config : OptimizerConfig) (irm_params : Option (List IRMParams))
    (t1 t2 : ℚ) :
    (optimize total_assets protocols blocked_mask config irm_params t1).map erase_time_ms =
      (optimize total_assets protocols blocked_mask config irm_params t2).map erase_time_ms := by
  simp only [optimize]
  by_cases h0 : (candidate_grid total_assets protocols blocked_mask config).length = 0
  · rw [if_pos h0, if_pos h0]
  · rw [if_neg h0, if_neg h0]
    cases hfold : (candidate_grid total_assets protocols blocked_mask config).foldl
        (best_step total_assets protocols blocked_mask config.max_pool_share
          config.min_allocation irm_params) none with
    | none => rfl
    | some b => rfl

-- ============================================================================
-- ABI codec (`rebalance/mod.rs` lines 214-477, `vault_reader`)
-- ============================================================================

/-- Raw basis-point IRM tuple (`IRMParamsRaw`). -/
structure IRMParamsRaw where
  kink1_bps : ℕ
  rate_at_kink1_bps : ℕ
  kink2_bps : ℕ
  rate_at_kink2_bps : ℕ
  rate_at_max_bps : ℕ
  reserve_factor_bps : ℕ
deriving Repr, DecidableEq

/-- Guard state tuple (`GuardState`). -/
structure GuardState where
  blocked_mask : ℕ
  emergency_mode : Bool
  emergency_all : Bool
deriving Repr, DecidableEq

/-- Per-protocol on-chain tuple, 12 fields with the IRM sub-tuple nested
eighth (`ProtocolData`). -/
structure ProtocolData where
  protocol_type : ℕ
  pool : ℕ
  our_balance : ℕ
  pool_total_supply : ℕ
  pool_total_borrow : ℕ
  utilization_wad : ℕ
  current_apy_wad : ℕ
  irm : IRMParamsRaw
  meta_total_assets : ℕ
  meta_total_supply : ℕ
  meta_last_total_assets : ℕ
  meta_last_update : ℕ
deriving Repr, DecidableEq

/-- Nine-field snapshot tuple (`VaultSnapshot`). -/
structure VaultSnapshot where
  asset : ℕ
  total_assets : ℕ
  loose_cash : ℕ
  target_weights : List ℕ
  last_rebalance_time : ℕ
  rebalance_cooldown : ℕ
  snapshot_timestamp : ℕ
  protocols : List ProtocolData
  guard_state : GuardState
deriving Repr, DecidableEq

/-- Boolean as an ABI word. -/
def boolWord (b : Bool) : ℕ := if b then 1 else 0

/-- Canonical ABI encoding of one `ProtocolData`: a static tuple of 17
words. -/
def encodeProtocol (p : ProtocolData) : List ℕ :=
  [p.protocol_type, p.pool, p.our_balance, p.pool_total_supply, p.pool_total_borrow,
   p.utilization_wad, p.current_apy_wad,
   p.irm.kink1_bps, p.irm.rate_at_kink1_bps, p.irm.kink2_bps, p.irm.rate_at_kink2_bps,
   p.irm.rate_at_max_bps, p.irm.reserve_factor_bps,
   p.meta_total_assets, p.meta_total_supply, p.meta_last_total_assets, p.meta_last_update]

/-- Canonical head/tail ABI encoding of the nine-field snapshot tuple. The
payload is modelled at 32-byte-word granularity (each list entry is one
word), so the two dynamic-field offsets are byte offsets that are multiples
of 32. The static head is 11 words: six scalar fields, two offsets and the
inline 3-word guard tuple. -/
def encodeSnapshotBody (s : VaultSnapshot) : List ℕ :=
  [s.asset, s.total_assets, s.loose_cash, 32 * 11,
   s.last_rebalance_time, s.rebalance_cooldown, s.snapshot_timestamp,
   32 * (12 + s.target_weights.length),
   s.guard_state.blocked_mask, boolWord s.guard_state.emergency_mode,
   boolWord s.guard_state.emergency_all] ++
  (s.target_weights.length :: s.target_weights) ++
  (s.protocols.length :: (s.protocols.map encodeProtocol).flatten)

/-- Word-level mirror of `parse_protocol_token`: a 17-word chunk is one
`ProtocolData`. -/
def parseProtocolWords (l : List ℕ) : Except String ProtocolData :=
  match l with
  | [a, b, c, d, e, f, g, h1, h2, h3, h4, h5, h6, m1, m2, m3, m4] =>
      .ok ⟨a, b, c, d, e, f, g, ⟨h1, h2, h3, h4, h5, h6⟩, m1, m2, m3, m4⟩
  | _ => .error "Expected 12 fields in ProtocolData"

/-- Word-level mirror of the protocols-array decode: `count` static tuples
of 17 words each. -/
def parseProtocolsWords : ℕ → List ℕ → Except String (List ProtocolData)
  | 0, _ => .ok []
  | k + 1, l => do
      let p ← parseProtocolWords (l.take 17)
      let rest ← parseProtocolsWords k (l.drop 17)
      .ok (p :: rest)

/-- Word-level mirror of the ethabi decode of the nine-field tuple: read the
11-word static head, follow the two offsets into the tails, check the
lengths, and assemble the snapshot. -/
def decodeSnapshotBody (w : List ℕ) : Except String VaultSnapshot :=
  match w with
  | asset :: ta :: lc :: o1 :: t1 :: t2 :: t3 :: o2 :: g1 :: g2 :: g3 :: _ =>
      let i1 := o1 / 32
      let len1 := w.getD i1 0
      let tws := (w.drop (i1 + 1)).take len1
      let i2 := o2 / 32
      let lenP := w.getD i2 0
      let pws := (w.drop (i2 + 1)).take (17 * lenP)
      if tws.length < len1 then .error "Failed to decode ABI"
      else if pws.length < 17 * lenP then .error "Failed to decode ABI"
      else do
        let protos ← parseProtocolsWords lenP pws
        .ok ⟨asset, ta, lc, tws, t1, t2, t3, protos, ⟨g1, g2 != 0, g3 != 0⟩⟩
  | _ => .error "Failed to decode ABI"

/-- Decoder entry (`decode_vault_snapshot`): reject payloads shorter than one
32-byte word, then skip the leading offset word and decode the tuple. -/
def decode_vault_snapshot (payload : List ℕ) : Except String VaultSnapshot :=
  if payload.length < 1 then .error "Response too short"
  else decodeSnapshotBody (payload.drop 1)

-- ============================================================================
-- Claim C5: the decoder skips the offset word; encode/decode round trip
-- ============================================================================

theorem parseProtocolWords_encode (p : ProtocolData) :
    parseProtocolWords (encodeProtocol p) = .ok p := rfl

theorem protocols_flatten_length (ps : List ProtocolData) :
    ((ps.map encodeProtocol).flatten).length = 17 * ps.length := by
  induction ps with
  | nil => rfl
  | cons p rest ih =>
    simp only [List.map_cons, List.flatten_cons, List.length_append, ih, List.length_cons]
    have h17 : (encodeProtocol p).length = 17 := rfl
    rw [h17]
    ring

theorem parseProtocolsWords_encode (ps : List ProtocolData) :
    parseProtocolsWords ps.length ((ps.map encodeProtocol).flatten) = .ok ps := by
  induction ps with
  | nil => rfl
  | cons p rest ih =>
    simp only [List.map_cons, List.flatten_cons, List.length_cons]
    rw [parseProtocolsWords]
    have h17 : (encodeProtocol p).length = 17 := rfl
    rw [← h17, List.take_left, List.drop_left]
    simp only [parseProtocolWords_encode, ih]
    rfl

theorem boolWord_ne_zero (b : Bool) : (boolWord b != 0) = b := by
  cases b <;> rfl

theorem getD_append_self {l1 l2 : List ℕ} {n : ℕ} (h : l1.length = n) (d : ℕ) :
    (l1 ++ l2).getD n d = l2.getD 0 d := by
  subst h
  rw [List.getD_append_right _ _ _ _ (le_refl _), Nat.sub_self]

theorem drop_append_self {l1 l2 : List ℕ} {n : ℕ} (h : l1.length = n) :
    (l1 ++ l2).drop (n + 1) = l2.drop 1 := by
  subst h
  exact List.drop_append 1

theorem decodeSnapshotBody_encode (sa sta slc t1 t2 t3 gm : ℕ) (ge1 ge2 : Bool)
    (tws : List ℕ) (ps : List ProtocolData) :
    decodeSnapshotBody (sa :: sta :: slc :: (32 * 11) :: t1 :: t2 :: t3 ::
      (32 * (12 + tws.length)) :: gm :: boolWord ge1 :: boolWord ge2 ::
      (tws.length :: tws ++ ps.length :: (ps.map encodeProtocol).flatten)) =
      Except.ok ⟨sa, sta, slc, tws, t1, t2, t3, ps, ⟨gm, ge1, ge2⟩⟩ := by
  have h1 : (32 * 11 : ℕ) / 32 = 11 := by norm_num
  have h2 : 32 * (12 + tws.length) / 32 = 12 + tws.length :=
    Nat.mul_div_cancel_left _ (by norm_num)
  have g11 : (sa :: sta :: slc :: (32 * 11) :: t1 :: t2 :: t3 ::
      (32 * (12 + tws.length)) :: gm :: boolWord ge1 :: boolWord ge2 ::
      (tws.length :: tws ++ ps.length :: (ps.map encodeProtocol).flatten)).getD 11 0 =
      tws.length := rfl
  have d12 : (sa :: sta :: slc :: (32 * 11) :: t1 :: t2 :: t3 ::
      (32 * (12 + tws.length)) :: gm :: boolWord ge1 :: boolWord ge2 ::
      (tws.length :: tws ++ ps.length :: (ps.map encodeProtocol).flatten)).drop 12 =
      tws ++ ps.length :: (ps.map encodeProtocol).flatten := rfl
  have hsplit : (sa :: sta :: slc :: (32 * 11) :: t1 :: t2 :: t3 ::
      (32 * (12 + tws.length)) :: gm :: boolWord ge1 :: boolWord ge2 ::
      (tws.length :: tws ++ ps.length :: (ps.map encodeProtocol).flatten)) =
      (sa :: sta :: slc :: (32 * 11) :: t1 :: t2 :: t3 ::
        (32 * (12 + tws.length)) :: gm :: boolWord ge1 :: boolWord ge2 ::
        tws.length :: tws) ++ (ps.length :: (ps.map encodeProtocol).flatten) := by
    simp
  simp only [decodeSnapshotBody, h1, h2, g11, d12]
  rw [List.take_left]
  simp only [lt_self_iff_false, if_false]
  rw [hsplit, getD_append_self (by simp only [List.length_cons]; omega) 0,
    drop_append_self (by simp only [List.length_cons]; omega)]
  simp only [List.getD_cons_zero, List.drop_one, List.tail_cons]
  rw [← protocols_flatten_length ps, List.take_length]
  simp only [lt_self_iff_false, if_false, parseProtocolsWords_encode, boolWord_ne_zero]
  rfl

/-- C5. The decoder skips the leading 32-byte offset word unconditionally,
and decoding a well-formed payload — one offset word followed by the
canonical encoding of the nine-field tuple — succeeds and returns exactly
the encoded snapshot. -/
theorem C5_abi_roundtrip :
    (∀ (offset_word : ℕ) (rest : List ℕ),
      decode_vault_snapshot (offset_word :: rest) = decodeSnapshotBody rest) ∧
    (∀ (offset_word : ℕ) (s : VaultSnapshot),
      decode_vault_snapshot (offset_word :: encodeSnapshotBody s) = Except.ok s) := by
  constructor
  · intro w rest
    rfl
  · intro w s
    obtain ⟨sa, sta, slc, tws, t1, t2, t3, ps, gm, ge1, ge2⟩ := s
    rw [decode_vault_snapshot, if_neg (by simp)]
    have hw : (w :: encodeSnapshotBody ⟨sa, sta, slc, tws, t1, t2, t3, ps, gm, ge1, ge2⟩).drop 1 =
        sa :: sta :: slc :: (32 * 11) :: t1 :: t2 :: t3 :: (32 * (12 + tws.length)) ::
        gm :: boolWord ge1 :: boolWord ge2 ::
        (tws.length :: tws ++ ps.length :: (ps.map encodeProtocol).flatten) := by
      simp [encodeSnapshotBody]
    rw [hw, decodeSnapshotBody_encode]

-- ============================================================================
-- Claim C9: entry dispatch
-- ============================================================================

/-- Dispatch-relevant fields of the one stdin JSON object. -/
structure StdinInput where
  action : Option String
  vaultDataReader : Option String
deriving Repr, DecidableEq

/-- Routing targets of the entry dispatcher. -/
inductive DispatchTarget where
  | emergency
  | rpc_optimizer
  | legacy_optimizer
  | error_envelope
deriving Repr, DecidableEq

/-- Modelled from the spec: the entry dispatcher of the current-generation
crate root, which is not under src/ (src/ holds its callees
`rebalance::run_with_rpc`, `rebalance::run_legacy` and `emergency::run`, and
a legacy `lib.rs` root without action routing). Spec section 4.7: an `action`
of "emergency-check" or "emergency" dispatches to the emergency peer;
otherwise (absent or "rebalance") a present `vaultDataReader` selects RPC-fed
optimization and its absence legacy optimization; an unknown `action` emits
an error envelope. -/
def dispatch (input : StdinInput) : DispatchTarget :=
  match input.action with
  | some a =>
      if a = "emergency-check" ∨ a = "emergency" then .emergency
      else if a = "rebalance" then
        (if input.vaultDataReader.isSome then .rpc_optimizer else .legacy_optimizer)
      else .error_envelope
  | none => if input.vaultDataReader.isSome then .rpc_optimizer else .legacy_optimizer

/-- C9. Emergency actions reach the emergency peer and never an optimizer;
default actions select the optimizer by presence of `vaultDataReader`; any
other action value produces an error envelope, not an optimizer run. -/
theorem C9_entry_dispatch (input : StdinInput) :
    ((input.action = some "emergency-check" ∨ input.action = some "emergency") →
      dispatch input = .emergency) ∧
    ((input.action = none ∨ input.action = some "rebalance") →
      dispatch input =
        (if input.vaultDataReader.isSome then .rpc_optimizer else .legacy_optimizer)) ∧
    (∀ a : String, input.action = some a → a ≠ "emergency-check" → a ≠ "emergency" →
      a ≠ "rebalance" → dispatch input = .error_envelope) := by
  obtain ⟨act, rdr⟩ := input
  refine ⟨?_, ?_, ?_⟩
  · rintro (h | h) <;> simp_all [dispatch]
  · rintro (h | h) <;> simp_all [dispatch]
  · intro a ha h1 h2 h3
    subst ha
    simp [dispatch, h1, h2, h3]

/-- C9 witness: the dispatch theorem applied at four concrete inputs, one
per routing target. -/
theorem C9_entry_dispatch_witness :
    dispatch ⟨some "emergency-check", none⟩ = .emergency ∧
    dispatch ⟨none, some "0xreader"⟩ = .rpc_optimizer ∧
    dispatch ⟨none, none⟩ = .legacy_optimizer ∧
    dispatch ⟨some "bogus", some "0xreader"⟩ = .error_envelope := by
  refine ⟨(C9_entry_dispatch _).1 (Or.inl rfl), ?_, ?_,
    (C9_entry_dispatch _).2.2 "bogus" rfl (by decide) (by decide) (by decide)⟩
  · exact ((C9_entry_dispatch _).2.1 (Or.inl rfl)).trans (by rfl)
  · exact ((C9_entry_dispatch _).2.1 (Or.inl rfl)).trans (by rfl)

-- ============================================================================
-- Claim C10: totality of evaluation inside the guarded bounds
-- ============================================================================

/-- Rust integer division, which panics on a zero divisor. -/
def checkedDiv (a b : ℕ) : Option ℕ := if b = 0 then none else some (a / b)

/-- Rust `1u8 << i`, which overflows for a shift amount of 8 or more. -/
def checkedShl1u8 (i : ℕ) : Option ℕ := if i < 8 then some (2 ^ i) else none

/-- Rust `usize` decrement, which underflows at zero (the `n_protocols - 1`
recursion base of the grid generators). -/
def checkedPred (n : ℕ) : Option ℕ := if n = 0 then none else some (n - 1)

/-- Variant of `generate_weight_grid` with its two arithmetic hazards surfaced. -/
def generate_weight_grid_checked (n_protocols step_pct : ℕ) : Option (List (List ℚ)) := do
  let n_steps ← checkedDiv 100 step_pct
  let _ ← checkedPred n_protocols
  some (generate_weight_rec (1 / (n_steps : ℚ)) n_protocols n_steps)

/-- Variant of `generate_bounded_weight_grid` with its two arithmetic hazards surfaced. -/
def generate_bounded_weight_grid_checked (step_pct : ℕ) (max_weights_pct : List ℕ)
    (n_protocols : ℕ) : Option (List (List ℚ)) := do
  let _ ← checkedDiv 100 step_pct
  let _ ← checkedPred n_protocols
  some (generate_bounded_weight_grid step_pct max_weights_pct)

/-- Loop body of `is_valid_allocation` with the `1 << i` hazard surfaced. -/
def is_valid_go_checked (protocols : List ProtocolState) (blocked_mask : ℕ)
    (max_pool_share min_allocation : ℚ) : ℕ → List ℚ → Option Bool
  | _, [] => some true
  | i, alloc :: rest => do
    let bit ← checkedShl1u8 i
    let protocol := protocols.getD i default
    if blocked_mask &&& bit ≠ 0 ∧ alloc > protocol.our_balance then some false
    else
      let delta := alloc - protocol.our_balance
      let new_pool_supply := protocol.pool_supply + delta
      if new_pool_supply > 0 ∧ alloc > new_pool_supply * max_pool_share then some false
      else if alloc > 0 ∧ alloc < min_allocation then some false
      else is_valid_go_checked protocols blocked_mask max_pool_share min_allocation (i + 1) rest

/-- Variant of `is_valid_allocation` with the shift-by-i hazard surfaced. -/
def is_valid_allocation_checked (allocations : List ℚ) (protocols : List ProtocolState)
    (blocked_mask : ℕ) (max_pool_share min_allocation : ℚ) : Option Bool :=
  is_valid_go_checked protocols blocked_mask max_pool_share min_allocation 0 allocations

/-- Cap derivation of `optimize` with the `1 << i` hazard surfaced. -/
def max_weights_pct_checked (total_assets : ℚ) (protocols : List ProtocolState)
    (blocked_mask : ℕ) (max_pool_share : ℚ) : Option (List ℕ) :=
  let base := (max_allocs protocols max_pool_share).map fun ma =>
    min (ratToNat (ma / total_assets * 100) + 1) 100
  let current_balances := protocols.map (·.our_balance)
  (List.range protocols.length).mapM fun i => do
    let bit ← checkedShl1u8 i
    if blocked_mask &&& bit ≠ 0 then
      some (max (ratToNat (current_balances.getD i 0 / total_assets * 100)) 0)
    else
      some (base.getD i 0)

/-- Grid selection of `optimize` with its hazards surfaced. -/
def candidate_grid_checked (total_assets : ℚ) (protocols : List ProtocolState)
    (blocked_mask : ℕ) (config : OptimizerConfig) : Option (List (List ℚ)) :=
  if total_assets > 0 then
    (max_weights_pct_checked total_assets protocols blocked_mask config.max_pool_share).bind
      fun mw => generate_bounded_weight_grid_checked config.step_pct mw protocols.length
  else generate_weight_grid_checked protocols.length config.step_pct

/-- Variant of `optimize` with every unguarded arithmetic hazard surfaced:
division by `step_pct`, the recursion base of the grid generators, and the
8-bit mask shifts of the cap derivation and validity filter. -/
def optimize_checked (total_assets : ℚ) (protocols : List ProtocolState) (blocked_mask : ℕ)
    (config : OptimizerConfig) (irm_params : Option (List IRMParams)) (elapsed_ms : ℚ) :
    Option (Except String OptimizationResult) := do
  let n_protocols := protocols.length
  let weights ← candidate_grid_checked total_assets protocols blocked_mask config
  let n_scenarios := weights.length
  if n_scenarios = 0 then some (.error "No valid weight combinations generated")
  else do
    let best ← weights.foldlM (fun acc combo => do
        let v ← is_valid_allocation_checked (combo.map (· * total_assets)) protocols
          blocked_mask config.max_pool_share config.min_allocation
        if v then some (pick_step acc (eval_candidate total_assets protocols irm_params combo))
        else some acc) (none : Option BestState)
    match best with
    | some b =>
        let weights_decimal :=
          if total_assets > 0 then b.allocations.map (· / total_assets)
          else List.replicate n_protocols 0
        let weighted_apy :=
          if total_assets > 0 then
            ((b.allocations.zip b.apys).map fun x => x.1 * x.2).sum / total_assets
          else 0
        some (.ok ⟨b.allocations.map fun a => hexWord (ratToU128 a),
             b.allocations,
             weights_decimal.map fun w => hexWord (ratToU128 (w * WAD_F64)),
             weights_decimal,
             b.ret,
             weighted_apy,
             b.apys,
             n_scenarios,
             elapsed_ms⟩)
    | none =>
        let current_balances := protocols.map (·.our_balance)
        let current_apys := protocols.map (·.current_apy)
        let weights_decimal :=
          if total_assets > 0 then current_balances.map (· / total_assets)
          else List.replicate n_protocols 0
        some (.ok ⟨current_balances.map fun a => hexWord (ratToU128 a),
             current_balances,
             weights_decimal.map fun w => hexWord (ratToU128 (w * WAD_F64)),
             weights_decimal,
             0,
             0,
             current_apys,
             n_scenarios,
             elapsed_ms⟩)

theorem mapM_eq_some_map {α β : Type} (f : α → Option β) (g : α → β) (l : List α)
    (h : ∀ x ∈ l, f x = some (g x)) : l.mapM f = some (l.map g) := by
  induction l with
  | nil => rfl
  | cons x xs ih =>
    rw [List.mapM_cons, h x (List.mem_cons_self _ _),
      ih fun y hy => h y (List.mem_cons.mpr (Or.inr hy))]
    rfl

theorem is_valid_go_checked_eq (protocols : List ProtocolState) (blocked_mask : ℕ)
    (max_pool_share min_allocation : ℚ) (allocs : List ℚ) :
    ∀ i : ℕ, i + allocs.length ≤ 8 →
      is_valid_go_checked protocols blocked_mask max_pool_share min_allocation i allocs =
        some (is_valid_go protocols blocked_mask max_pool_share min_allocation i allocs) := by
  induction allocs with
  | nil => intro i _; rfl
  | cons a rest ih =>
    intro i hle
    simp only [List.length_cons] at hle
    have hbit : checkedShl1u8 i = some (2 ^ i) := by
      rw [checkedShl1u8, if_pos (by omega)]
    simp only [is_valid_go_checked, is_valid_go, hbit, Option.bind_eq_bind, Option.some_bind]
    split_ifs <;> first
      | rfl
      | exact ih (i + 1) (by omega)

theorem is_valid_allocation_checked_eq (allocations : List ℚ)
    (protocols : List ProtocolState) (blocked_mask : ℕ) (max_pool_share min_allocation : ℚ)
    (h8 : allocations.length ≤ 8) :
    is_valid_allocation_checked allocations protocols blocked_mask max_pool_share
        min_allocation =
      some (is_valid_allocation allocations protocols blocked_mask max_pool_share
        min_allocation) :=
  is_valid_go_checked_eq protocols blocked_mask max_pool_share min_allocation allocations 0
    (by omega)

theorem max_weights_pct_checked_eq (total_assets : ℚ) (protocols : List ProtocolState)
    (blocked_mask : ℕ) (max_pool_share : ℚ) (h8 : protocols.length ≤ 8) :
    max_weights_pct_checked total_assets protocols blocked_mask max_pool_share =
      some (max_weights_pct total_assets protocols blocked_mask max_pool_share) := by
  unfold max_weights_pct_checked max_weights_pct
  apply mapM_eq_some_map
  intro i hi
  rw [List.mem_range] at hi
  have hbit : checkedShl1u8 i = some (2 ^ i) := by
    rw [checkedShl1u8, if_pos (by omega)]
  rw [hbit]
  show (if _ then some _ else some _) = _
  split <;> rfl

theorem generate_weight_grid_checked_eq (n_protocols step_pct : ℕ)
    (hn : 1 ≤ n_protocols) (hs : 1 ≤ step_pct) :
    generate_weight_grid_checked n_protocols step_pct =
      some (generate_weight_grid n_protocols step_pct) := by
  unfold generate_weight_grid_checked generate_weight_grid checkedDiv checkedPred
  rw [if_neg (by omega), if_neg (by omega)]
  rfl

theorem generate_bounded_weight_grid_checked_eq (step_pct : ℕ) (caps : List ℕ)
    (n_protocols : ℕ) (hn : 1 ≤ n_protocols) (hs : 1 ≤ step_pct) :
    generate_bounded_weight_grid_checked step_pct caps n_protocols =
      some (generate_bounded_weight_grid step_pct caps) := by
  unfold generate_bounded_weight_grid_checked checkedDiv checkedPred
  rw [if_neg (by omega), if_neg (by omega)]
  rfl

theorem generate_bounded_rec_mem_length (step_pct : ℕ) :
    ∀ (caps : List ℕ) (S : ℕ) (c : List ℚ), c ∈ generate_bounded_rec step_pct caps S →
      c.length = caps.length := by
  intro caps
  induction caps with
  | nil =>
    intro S c hc
    simp [generate_bounded_rec] at hc
  | cons cap caps ih =>
    cases caps with
    | nil =>
      intro S c hc
      rw [generate_bounded_rec] at hc
      split at hc
      · simp only [List.mem_singleton] at hc
        rw [hc]
        rfl
      · simp at hc
    | cons cap2 caps2 =>
      intro S c hc
      simp only [generate_bounded_rec, List.mem_flatMap, List.mem_map] at hc
      obtain ⟨w, -, t, ht, rfl⟩ := hc
      simp only [List.length_cons, ih _ t ht]

theorem generate_weight_grid_mem_length (n_protocols step_pct : ℕ) (hn : 1 ≤ n_protocols) :
    ∀ c ∈ generate_weight_grid n_protocols step_pct, c.length = n_protocols := by
  obtain ⟨m, rfl⟩ : ∃ m, n_protocols = m + 1 := ⟨n_protocols - 1, by omega⟩
  intro c hc
  unfold generate_weight_grid at hc
  rw [generate_weight_rec_eq_stars] at hc
  obtain ⟨k, hk, rfl⟩ := List.mem_map.mp hc
  rw [List.length_map]
  exact ((stars_mem m _ k).mp hk).1

theorem max_weights_pct_length (total_assets : ℚ) (protocols : List ProtocolState)
    (blocked_mask : ℕ) (max_pool_share : ℚ) :
    (max_weights_pct total_assets protocols blocked_mask max_pool_share).length =
      protocols.length := by
  unfold max_weights_pct
  simp

theorem candidate_grid_mem_length (total_assets : ℚ) (protocols : List ProtocolState)
    (blocked_mask : ℕ) (config : OptimizerConfig) (hn : 1 ≤ protocols.length) :
    ∀ c ∈ candidate_grid total_assets protocols blocked_mask config,
      c.length = protocols.length := by
  intro c hc
  unfold candidate_grid at hc
  split at hc
  · unfold generate_bounded_weight_grid at hc
    have := generate_bounded_rec_mem_length config.step_pct _ _ c hc
    rw [this, List.length_map, max_weights_pct_length]
  · exact generate_weight_grid_mem_length _ _ hn c hc

theorem foldlM_checked_eq (total_assets : ℚ) (protocols : List ProtocolState)
    (blocked_mask : ℕ) (max_pool_share min_allocation : ℚ)
    (irm_params : Option (List IRMParams)) (weights : List (List ℚ))
    (h8 : ∀ c ∈ weights, c.length ≤ 8) :
    ∀ acc : Option BestState,
      (weights.foldlM (fun acc combo =>
          (is_valid_allocation_checked (combo.map (· * total_assets)) protocols
            blocked_mask max_pool_share min_allocation).bind fun v =>
          if v then
            some (pick_step acc (eval_candidate total_assets protocols irm_params combo))
          else some acc) acc) =
        some (weights.foldl (best_step total_assets protocols blocked_mask max_pool_share
          min_allocation irm_params) acc) := by
  induction weights with
  | nil => intro acc; rfl
  | cons c cs ih =>
    intro acc
    rw [List.foldlM_cons, List.foldl_cons]
    have hlen : (c.map (· * total_assets)).length ≤ 8 := by
      rw [List.length_map]
      exact h8 c (List.mem_cons_self _ _)
    rw [is_valid_allocation_checked_eq _ _ _ _ _ hlen]
    have hrest : ∀ x ∈ cs, x.length ≤ 8 := fun x hx => h8 x (List.mem_cons.mpr (Or.inr hx))
    simp only [Option.bind_eq_bind, Option.some_bind]
    by_cases hval : is_valid_allocation (c.map (· * total_assets)) protocols blocked_mask
        max_pool_share min_allocation
    · rw [if_pos hval]
      have hstep : best_step total_assets protocols blocked_mask max_pool_share
          min_allocation irm_params acc c =
          pick_step acc (eval_candidate total_assets protocols irm_params c) := by
        rw [best_step, if_pos hval]
        cases acc <;> rfl
      rw [hstep]
      exact ih hrest _
    · rw [if_neg hval]
      have hstep : best_step total_assets protocols blocked_mask max_pool_share
          min_allocation irm_params acc c = acc := by
        rw [best_step, if_neg hval]
      rw [hstep]
      exact ih hrest _

/-- C10. Inside the bounds 1 ≤ protocols ≤ 8 and step_pct ≥ 1 (which the
public interface never checks), every guarded arithmetic step succeeds: the
hazard-surfaced optimizer agrees with the total model. Outside the bounds the
guards trip: an empty protocol list reaches the recursion-base underflow,
step_pct = 0 the division, and a ninth protocol the 8-bit mask shift. -/
theorem C10_guarded_totality :
    (∀ (total_assets : ℚ) (protocols : List ProtocolState) (blocked_mask : ℕ)
      (config : OptimizerConfig) (irm_params : Option (List IRMParams)) (elapsed_ms : ℚ),
      1 ≤ protocols.length → protocols.length ≤ 8 → 1 ≤ config.step_pct →
      optimize_checked total_assets protocols blocked_mask config irm_params elapsed_ms =
        some (optimize total_assets protocols blocked_mask config irm_params elapsed_ms)) ∧
    optimize_checked 0 [] 0 ⟨1, 0.2, 1000⟩ none 0 = none ∧
    optimize_checked 0 [⟨0, 0, 0, 0, 0, false, 0⟩] 0 ⟨0, 0.2, 1000⟩ none 0 = none ∧
    optimize_checked 1 (List.replicate 9 ⟨0, 0, 0, 0, 0, false, 0⟩) 1
      ⟨1, 0.2, 1000⟩ none 0 = none := by
  refine ⟨?_, ?_, ?_, ?_⟩
  · intro total_assets protocols blocked_mask config irm_params elapsed_ms hn h8 hs
    have hW : candidate_grid_checked total_assets protocols blocked_mask config =
        some (candidate_grid total_assets protocols blocked_mask config) := by
      unfold candidate_grid_checked candidate_grid
      by_cases ht : total_assets > 0
      · rw [if_pos ht, if_pos ht,
          max_weights_pct_checked_eq total_assets protocols blocked_mask
            config.max_pool_share h8, Option.some_bind]
        exact generate_bounded_weight_grid_checked_eq _ _ _ hn hs
      · rw [if_neg ht, if_neg ht]
        exact generate_weight_grid_checked_eq _ _ hn hs
    have hlen : ∀ c ∈ candidate_grid total_assets protocols blocked_mask config,
        c.length ≤ 8 := by
      intro c hc
      rw [candidate_grid_mem_length total_assets protocols blocked_mask config hn c hc]
      exact h8
    simp only [optimize_checked, optimize, hW, Option.bind_eq_bind, Option.some_bind]
    by_cases h0 : (candidate_grid total_assets protocols blocked_mask config).length = 0
    · rw [if_pos h0, if_pos h0]
    · rw [if_neg h0, if_neg h0,
        foldlM_checked_eq total_assets protocols blocked_mask config.max_pool_share
          config.min_allocation irm_params _ hlen none]
      simp only [Option.bind_eq_bind, Option.some_bind]
      cases (candidate_grid total_assets protocols blocked_mask config).foldl
          (best_step total_assets protocols blocked_mask config.max_pool_share
            config.min_allocation irm_params) none with
      | none => rfl
      | some b => rfl
  · rfl
  · rfl
  · have hnone : candidate_grid_checked 1 (List.replicate 9 ⟨0, 0, 0, 0, 0, false, 0⟩) 1
        ⟨1, 0.2, 1000⟩ = none := by
      norm_num [candidate_grid_checked, max_weights_pct_checked, max_allocs, ratToNat,
        checkedShl1u8, List.range, List.mapM, List.mapM.loop, List.replicate]
    simp only [optimize_checked]
    rw [hnone]
    rfl

/-- C10 witness: the guarded-totality theorem applied at a concrete
one-protocol instance inside the bounds. -/
theorem C10_guarded_totality_witness :
    1 ≤ ([⟨0, 1000000, 0, 0, 0.02, false, 1⟩] : List ProtocolState).length ∧
    ([⟨0, 1000000, 0, 0, 0.02, false, 1⟩] : List ProtocolState).length ≤ 8 ∧
    1 ≤ (⟨100, 0.2, 1000⟩ : OptimizerConfig).step_pct ∧
    optimize_checked 2000 [⟨0, 1000000, 0, 0, 0.02, false, 1⟩] 0 ⟨100, 0.2, 1000⟩ none 0 =
      some (optimize 2000 [⟨0, 1000000, 0, 0, 0.02, false, 1⟩] 0 ⟨100, 0.2, 1000⟩ none 0) :=
  ⟨by norm_num, by norm_num, by norm_num,
    C10_guarded_totality.1 2000 [⟨0, 1000000, 0, 0, 0.02, false, 1⟩] 0 ⟨100, 0.2, 1000⟩
      none 0 (by norm_num) (by norm_num) (by norm_num)⟩

-- ============================================================================
-- Claim C8: dilution APY case analysis and time-delta clamp
-- ============================================================================

/-- Dilution APY exactly as the C8 claim words it: branch values, the 7-day
fallback for the time delta, and the [1 h, 30 d] clamp. -/
def dilution_apy_claimed (total_assets total_supply last_total_assets : ℚ)
    (last_update snapshot_timestamp : ℕ) : ℚ :=
  if total_supply ≤ 0 ∨ total_assets ≤ 0 then 0
  else if last_total_assets ≤ 0 then (if last_update = 0 then 0.05 else 0)
  else if last_total_assets ≥ total_assets then 0
  else if snapshot_timestamp = 0 then 0.05
  else
    let dt : ℕ :=
      if last_update = 0 ∨ last_update ≥ snapshot_timestamp then 604800
      else min (max (snapshot_timestamp - last_update) 3600) 2592000
    (total_assets - last_total_assets) / last_total_assets * 31536000 / (dt : ℚ)

theorem calc_dilution_time_delta_range (last_update snapshot_timestamp : ℕ) :
    calc_dilution_time_delta last_update snapshot_timestamp = 604800 ∨
      (3600 ≤ calc_dilution_time_delta last_update snapshot_timestamp ∧
        calc_dilution_time_delta last_update snapshot_timestamp ≤ 2592000) := by
  simp only [calc_dilution_time_delta]
  split_ifs <;> omega

theorem calc_dilution_time_delta_eq (last_update snapshot_timestamp : ℕ) :
    calc_dilution_time_delta last_update snapshot_timestamp =
      if last_update = 0 ∨ last_update ≥ snapshot_timestamp then 604800
      else min (max (snapshot_timestamp - last_update) 3600) 2592000 := by
  simp only [calc_dilution_time_delta, Nat.max_def, Nat.min_def]
  split_ifs <;> omega

/-- C8. The dilution-model current APY follows exactly the claimed case
analysis (zero on empty vault or non-growth, 0.05 default on missing history
or timestamp, otherwise annualized growth over the clamped time delta), and
the time delta always lies in {604800} ∪ [3600, 2592000]. -/
theorem C8_dilution_apy_cases :
    (∀ (ta ts lta : ℚ) (lu st : ℕ),
      calc_dilution_current_apy ta ts lta lu st = dilution_apy_claimed ta ts lta lu st) ∧
    (∀ lu st : ℕ,
      calc_dilution_time_delta lu st = 604800 ∨
        (3600 ≤ calc_dilution_time_delta lu st ∧ calc_dilution_time_delta lu st ≤ 2592000)) := by
  constructor
  · intro ta ts lta lu st
    unfold calc_dilution_current_apy dilution_apy_claimed
    split
    · rfl
    · split
      · rfl
      · split
        · rfl
        · split
          · rfl
          · have hdt := calc_dilution_time_delta_eq lu st
            have hne : calc_dilution_time_delta lu st ≠ 0 := by
              rcases calc_dilution_time_delta_range lu st with h | h <;> omega
            rw [if_neg hne, hdt]
            rw [mul_div_assoc]
  · exact calc_dilution_time_delta_range

end Simulator
